import Mathlib

/-!
Shallow embedding of the BillBuddy back end (src/back_end/main.py and
src/back_end/models.py).  Monetary amounts are rationals; Python dicts keyed
by email strings are association lists; the Mongo collections are Lean lists
inside a `Store` record.  Python's `round` (round half to even) is modelled
exactly on rationals.
-/

abbrev Email := String

/-- Python's built-in `round` to an integer: round half to even. -/
def pyRound (x : ℚ) : ℤ :=
  if Int.fract x = 1/2 then (if ⌊x⌋ % 2 = 0 then ⌊x⌋ else ⌊x⌋ + 1) else round x

/-- Python's `round(x, 2)`: round to two decimal places. -/
def round2 (x : ℚ) : ℚ := (pyRound (100 * x) : ℚ) / 100

/-- Association-list lookup, modelling `d[k]` / `k in d` for a Python dict. -/
def alookup {β : Type} : List (String × β) → String → Option β
  | [], _ => none
  | (k, v) :: rest, key => if k = key then some v else alookup rest key

/-- Lookup in an email-to-amount dict. -/
def dlookup (d : List (Email × ℚ)) (k : Email) : Option ℚ := alookup d k

/-- The key list of a dict (`d.keys()`). -/
def dkeys (d : List (Email × ℚ)) : List Email := d.map Prod.fst

/-- `sum(d.values())`. -/
def sumValues (d : List (Email × ℚ)) : ℚ := (d.map Prod.snd).sum

/-- The dict comprehension building a constant-valued dict
`\x7bp: v for p in ps\x7d`; duplicate keys collapse. -/
def pyDictConst (ps : List Email) (v : ℚ) : List (Email × ℚ) :=
  ps.dedup.map (fun p => (p, v))

/-- `set(xs) == set(ys)` as a Boolean. -/
def setEqb (xs ys : List Email) : Bool :=
  xs.all (fun x => decide (x ∈ ys)) && ys.all (fun y => decide (y ∈ xs))

/-- `net[k] = net.get(k, 0) + v` on a Python dict: update in place if the key
exists (keeping its position), else append. -/
def dictInsertAdd (d : List (Email × ℚ)) (k : Email) (v : ℚ) : List (Email × ℚ) :=
  if (dlookup d k).isSome then
    d.map (fun kv => if kv.1 = k then (kv.1, kv.2 + v) else kv)
  else d ++ [(k, v)]

/-- The `Expense` pydantic model (models.py): `split_amounts` carries the
`splits` alias used when reading stored records. -/
structure Expense where
  description : String
  amount : ℚ
  participants : List Email
  paid_by : Email
  split_method : String
  split_amounts : Option (List (Email × ℚ))
  group_id : Option String
deriving DecidableEq

/-- A stored expense document in the expenses collection. -/
structure StoredExpense where
  amount : ℚ
  participants : List Email
  paid_by : Email
  split_method : String
  splits : Option (List (Email × ℚ))
  group_id : Option String
deriving DecidableEq

/-- A stored payment document in the payments collection. -/
structure StoredPayment where
  amount : ℚ
  payer : Email
  payee : Email
  group_id : Option String
deriving DecidableEq

/-- The document store: the expenses and payments collections, and the groups
collection reduced to id-to-members (the only part balance logic reads). -/
structure Store where
  expenses : List StoredExpense
  payments : List StoredPayment
  groups : List (String × List Email)
deriving DecidableEq

/-- The equal share `round(amount / len(participants), 2)` computed in every
fallback branch of `calculate_split` (main.py lines 108-125). -/
def equalShare (e : Expense) : ℚ := round2 (e.amount / e.participants.length)

/-- `calculate_split` (main.py lines 103-126).  For `custom`, the stored
amounts are used when they are truthy, every participant is a key
(`all(p in expense.split_amounts for p in participants)`), and their values
sum (rounded to 2 decimals) to the amount; otherwise equal split. -/
def calculate_split (e : Expense) : List (Email × ℚ) :=
  if e.split_method = "equal" then
    pyDictConst e.participants (equalShare e)
  else if e.split_method = "custom" then
    match e.split_amounts with
    | none => pyDictConst e.participants (equalShare e)
    | some sa =>
      if sa = [] then pyDictConst e.participants (equalShare e)
      else if ¬ (e.participants.all (fun p => (dlookup sa p).isSome) = true) then
        pyDictConst e.participants (equalShare e)
      else if round2 (sumValues sa) ≠ round2 e.amount then
        pyDictConst e.participants (equalShare e)
      else sa
  else pyDictConst e.participants (equalShare e)

/-- `calculate_user_balance` (main.py lines 128-136). -/
def calculate_user_balance (splits : List (Email × ℚ)) (paid_by : Email)
    (current_user_email : Email) : List (Email × ℚ) :=
  if current_user_email = paid_by then
    splits.filter (fun pa => decide (pa.1 ≠ current_user_email))
  else
    match dlookup splits current_user_email with
    | some amt => [(paid_by, -amt)]
    | none => []

/-- Whether a stored expense document passes the pydantic `Expense` model
validation performed at read time (main.py lines 177-186): positive amount,
non-empty participants, and a legal `split_method` literal. -/
def validStoredExpense (e : StoredExpense) : Bool :=
  decide (0 < e.amount) && decide (e.participants ≠ []) &&
    (decide (e.split_method = "equal") || decide (e.split_method = "custom"))

/-- Re-reading a stored expense into the `Expense` model (main.py lines
177-186): the stored `splits` field becomes `split_amounts`. -/
def expenseModelOf (e : StoredExpense) : Expense :=
  { description := ""
    amount := e.amount
    participants := e.participants
    paid_by := e.paid_by
    split_method := e.split_method
    split_amounts := e.splits
    group_id := e.group_id }

/-- One expense's contribution to `net_balances` in
`get_user_expenses_by_email` (main.py lines 167-207, net-balance part):
records failing model validation are skipped, otherwise the recomputed
user balances are folded in, negated when the viewer is not the payer. -/
def processExpense (email : Email) (e : StoredExpense)
    (net : List (Email × ℚ)) : List (Email × ℚ) :=
  if validStoredExpense e then
    (calculate_user_balance (calculate_split (expenseModelOf e)) e.paid_by email).foldl
      (fun acc pa =>
        if pa.1 ≠ email then
          dictInsertAdd acc pa.1 (if e.paid_by = email then pa.2 else -pa.2)
        else acc) net
  else net

/-- One payment's contribution to `net_balances` in
`get_user_expenses_by_email` (main.py lines 249-252). -/
def processPayment (email : Email) (p : StoredPayment)
    (net : List (Email × ℚ)) : List (Email × ℚ) :=
  if p.payer = email then dictInsertAdd net p.payee (-p.amount)
  else if p.payee = email then dictInsertAdd net p.payer p.amount
  else net

/-- The `net_balances` component of `get_user_expenses_by_email`
(main.py lines 159-258): fold all expenses the email participates in, then
all payments it is payer or payee of, then round every aggregate. -/
def userNetBalances (email : Email) (st : Store) : List (Email × ℚ) :=
  ((st.payments.filter (fun p => decide (p.payer = email ∨ p.payee = email))).foldl
      (fun net p => processPayment email p net)
      ((st.expenses.filter (fun e => decide (email ∈ e.participants))).foldl
        (fun net e => processExpense email e net) [])).map
    (fun kv => (kv.1, round2 kv.2))

/-- Outcome of an endpoint call: success or an HTTPException status code. -/
inductive ApiResult where
  | ok : ApiResult
  | httpError (status : ℕ) : ApiResult
deriving DecidableEq

/-- The first custom-split rejection test of `add_expense` (main.py lines
337-338): `not expense.split_amounts or set(keys) != set(participants)`. -/
def customSplitsInvalidKeys (e : Expense) : Bool :=
  match e.split_amounts with
  | none => true
  | some sa => decide (sa = []) || !(setEqb (dkeys sa) e.participants)

/-- The second custom-split rejection test of `add_expense` (main.py lines
339-340): the values do not sum (rounded to 2 decimals) to the amount. -/
def customSumMismatch (e : Expense) : Bool :=
  match e.split_amounts with
  | none => false
  | some sa => decide (round2 (sumValues sa) ≠ round2 e.amount)

/-- The combined rejection condition of the claim: split amounts missing
(`None` or empty), key set differing from the participant set, or values not
summing to the amount. -/
def customRejectCond (e : Expense) : Bool :=
  match e.split_amounts with
  | none => true
  | some sa =>
      decide (sa = []) || !(setEqb (dkeys sa) e.participants) ||
        decide (round2 (sumValues sa) ≠ round2 e.amount)

/-- The expense document persisted by `add_expense` (main.py lines 350-357):
the submitted fields plus the computed `splits`. -/
def storedOfExpense (e : Expense) : StoredExpense :=
  { amount := e.amount
    participants := e.participants
    paid_by := e.paid_by
    split_method := e.split_method
    splits := some (calculate_split e)
    group_id := e.group_id }

/-- `validate_group_members` (main.py lines 146-157): the group must exist and
`set(participants + [paid_by])` must be a subset of its members.  Returns the
HTTP status of the raised exception, or `none` on success. -/
def validate_group_members (st : Store) (gid : String)
    (participants : List Email) (paid_by : Email) : Option ℕ :=
  match alookup st.groups gid with
  | none => some 400
  | some members =>
      if (participants ++ [paid_by]).all (fun x => decide (x ∈ members)) then none
      else some 400

/-- `add_expense` (main.py lines 329-378), reduced to its effect on the
store: the validation chain in source order, then insertion of the expense
document with its computed splits. -/
def add_expense (current_user : Email) (e : Expense) (st : Store) :
    ApiResult × Store :=
  if current_user ∉ e.participants then (.httpError 403, st)
  else if e.paid_by ∉ e.participants then (.httpError 400, st)
  else if e.split_method = "custom" ∧ customSplitsInvalidKeys e then
    (.httpError 400, st)
  else if e.split_method = "custom" ∧ customSumMismatch e then
    (.httpError 400, st)
  else
    match e.group_id with
    | some gid =>
        match validate_group_members st gid e.participants e.paid_by with
        | some code => (.httpError code, st)
        | none => (.ok, { st with expenses := st.expenses ++ [storedOfExpense e] })
    | none => (.ok, { st with expenses := st.expenses ++ [storedOfExpense e] })

/-- The per-sub-expense validation chain of `add_group_expense` (main.py
lines 393-403), in source order; depends on the store only through the
groups collection. -/
def validateSubExpense (groups : List (String × List Email))
    (current_user : Email) (gid : String) (e : Expense) : Option ℕ :=
  if current_user ∉ e.participants then some 403
  else if e.paid_by ∉ e.participants then some 400
  else if e.split_method = "custom" ∧ customSplitsInvalidKeys e then some 400
  else if e.split_method = "custom" ∧ customSumMismatch e then some 400
  else
    match alookup groups gid with
    | none => some 400
    | some members =>
        if (e.participants ++ [e.paid_by]).all (fun x => decide (x ∈ members)) then none
        else some 400

/-- The sub-expense document persisted by `add_group_expense` (main.py lines
404-411): computed splits and the batch's group id. -/
def storedOfGroupExpense (e : Expense) (gid : String) : StoredExpense :=
  { amount := e.amount
    participants := e.participants
    paid_by := e.paid_by
    split_method := e.split_method
    splits := some (calculate_split e)
    group_id := some gid }

/-- The loop of `add_group_expense` (main.py lines 392-432): validate and
insert each sub-expense in order; the first failure raises, leaving every
earlier insertion in place. -/
def processBatch (current_user : Email) (gid : String) :
    List Expense → Store → ApiResult × Store
  | [], st => (.ok, st)
  | e :: rest, st =>
    match validateSubExpense st.groups current_user gid e with
    | some code => (.httpError code, st)
    | none =>
        processBatch current_user gid rest
          { st with expenses := st.expenses ++ [storedOfGroupExpense e gid] }

/-- `add_group_expense` (main.py lines 386-432): the initial group-membership
check for the requesting user, then the sequential batch loop. -/
def add_group_expense (current_user : Email) (gid : String)
    (exps : List Expense) (st : Store) : ApiResult × Store :=
  match validate_group_members st gid [] current_user with
  | some code => (.httpError code, st)
  | none => processBatch current_user gid exps st

/-- The broken-splits test of `fix_expenses` (main.py line 656):
`not splits or set(splits.keys()) != set(participants) or
round(sum(splits.values()), 2) != round(amount, 2)`. -/
def brokenCustom (e : StoredExpense) : Bool :=
  match e.splits with
  | none => true
  | some s =>
      decide (s = []) || !(setEqb (dkeys s) e.participants) ||
        decide (round2 (sumValues s) ≠ round2 e.amount)

/-- The rewrite `fix_expenses` applies to one scanned document (main.py lines
656-662): equal splits over the participants and method downgraded to equal.
Documents that are not broken custom ones are left untouched. -/
def fixOne (e : StoredExpense) : StoredExpense :=
  if e.split_method = "custom" ∧ brokenCustom e then
    { e with
      splits := some (pyDictConst e.participants (round2 (e.amount / e.participants.length)))
      split_method := "equal" }
  else e

/-- The number of documents `fix_expenses` rewrites (its `fixed_count`). -/
def fixCount (st : Store) : ℕ :=
  (st.expenses.filter
    (fun e => decide (e.split_method = "custom") && brokenCustom e)).length

/-- `fix_expenses` (main.py lines 646-668): the repaired store and the
reported number of fixed records. -/
def fix_expenses (st : Store) : Store × ℕ :=
  ({ st with expenses := st.expenses.map fixOne }, fixCount st)

/-! ### Lemmas about rounding -/

lemma abs_pyRound_sub_le (x : ℚ) : |(pyRound x : ℚ) - x| ≤ 1/2 := by
  unfold pyRound
  by_cases h : Int.fract x = 1/2
  · rw [if_pos h]
    have hx : x = (⌊x⌋ : ℚ) + 1/2 := by
      have h0 := Int.floor_add_fract x
      rw [h] at h0
      linarith
    by_cases he : ⌊x⌋ % 2 = 0
    · rw [if_pos he, abs_le]
      constructor <;> linarith
    · rw [if_neg he, abs_le]
      constructor <;> push_cast <;> linarith
  · rw [if_neg h, abs_sub_comm]
    exact abs_sub_round x

lemma abs_round2_sub_le (x : ℚ) : |round2 x - x| ≤ 1/200 := by
  unfold round2
  have h := abs_pyRound_sub_le (100 * x)
  have hdiv : (pyRound (100 * x) : ℚ)/100 - x = ((pyRound (100 * x) : ℚ) - 100 * x)/100 := by
    ring
  rw [hdiv, abs_div, abs_of_pos (show (0:ℚ) < 100 by norm_num),
    div_le_iff₀ (show (0:ℚ) < 100 by norm_num)]
  linarith

/-! ### Lemmas about dict operations -/

lemma alookup_nil {β : Type} (key : String) :
    alookup ([] : List (String × β)) key = none := rfl

lemma alookup_cons {β : Type} (a : String) (b : β) (tl : List (String × β))
    (key : String) :
    alookup ((a, b) :: tl) key = if a = key then some b else alookup tl key := rfl

lemma dlookup_def (d : List (Email × ℚ)) (k : Email) : dlookup d k = alookup d k := rfl

lemma updFn_apply (k : Email) (v : ℚ) (a : Email) (b : ℚ) :
    (if (a, b).1 = k then ((a, b).1, (a, b).2 + v) else (a, b)) =
      if a = k then (a, b + v) else (a, b) := rfl

lemma dlookup_append_fresh {d : List (Email × ℚ)} {k : Email} (v : ℚ)
    (h : dlookup d k = none) : dlookup (d ++ [(k, v)]) k = some v := by
  induction d with
  | nil => rw [List.nil_append, dlookup_def, alookup_cons, if_pos rfl]
  | cons hd tl ih =>
      obtain ⟨a, b⟩ := hd
      rw [dlookup_def, alookup_cons] at h
      by_cases hak : a = k
      · rw [if_pos hak] at h
        exact absurd h (by simp)
      · rw [if_neg hak] at h
        rw [List.cons_append, dlookup_def, alookup_cons, if_neg hak]
        exact ih h

lemma dlookup_map_add {k : Email} (v : ℚ) :
    ∀ {d : List (Email × ℚ)} {w : ℚ}, dlookup d k = some w →
      dlookup (d.map (fun kv => if kv.1 = k then (kv.1, kv.2 + v) else kv)) k =
        some (w + v)
  | [], _, h => by rw [dlookup_def, alookup_nil] at h; exact absurd h (by simp)
  | (a, b) :: tl, w, h => by
      rw [dlookup_def, alookup_cons] at h
      rw [List.map_cons, updFn_apply]
      by_cases hak : a = k
      · rw [if_pos hak] at h ⊢
        rw [dlookup_def, alookup_cons, if_pos hak]
        rw [Option.some.injEq] at h
        rw [h]
      · rw [if_neg hak] at h ⊢
        rw [dlookup_def, alookup_cons, if_neg hak]
        exact dlookup_map_add v h

lemma dlookup_insertAdd_self (d : List (Email × ℚ)) (k : Email) (v : ℚ) :
    dlookup (dictInsertAdd d k v) k = some ((dlookup d k).getD 0 + v) := by
  unfold dictInsertAdd
  by_cases h : (dlookup d k).isSome
  · rw [if_pos h]
    obtain ⟨w, hw⟩ := Option.isSome_iff_exists.mp h
    rw [hw]
    exact dlookup_map_add v hw
  · rw [if_neg h]
    rw [Option.not_isSome_iff_eq_none] at h
    rw [h]
    simpa using dlookup_append_fresh v h

lemma dlookup_map_add_other {k k' : Email} (v : ℚ) (hkk : k' ≠ k) :
    ∀ d : List (Email × ℚ),
      dlookup (d.map (fun kv => if kv.1 = k then (kv.1, kv.2 + v) else kv)) k' =
        dlookup d k'
  | [] => rfl
  | (a, b) :: tl => by
      rw [List.map_cons, updFn_apply]
      by_cases hak : a = k
      · have hok : ¬ a = k' := fun hh => hkk (by rw [← hh, hak])
        rw [if_pos hak, dlookup_def, alookup_cons, if_neg hok,
          dlookup_def, alookup_cons, if_neg hok]
        exact dlookup_map_add_other v hkk tl
      · rw [if_neg hak, dlookup_def, alookup_cons, dlookup_def, alookup_cons]
        by_cases hak' : a = k'
        · rw [if_pos hak', if_pos hak']
        · rw [if_neg hak', if_neg hak']
          exact dlookup_map_add_other v hkk tl

lemma dlookup_append_other {k k' : Email} (v : ℚ) (hkk : k' ≠ k) :
    ∀ d : List (Email × ℚ), dlookup (d ++ [(k, v)]) k' = dlookup d k'
  | [] => by
      rw [List.nil_append, dlookup_def, alookup_cons,
        if_neg (fun hh : k = k' => hkk hh.symm)]
      rfl
  | (a, b) :: tl => by
      rw [List.cons_append, dlookup_def, alookup_cons, dlookup_def, alookup_cons]
      by_cases hak' : a = k'
      · rw [if_pos hak', if_pos hak']
      · rw [if_neg hak', if_neg hak']
        exact dlookup_append_other v hkk tl

lemma dlookup_insertAdd_other {d : List (Email × ℚ)} {k k' : Email} (v : ℚ)
    (h : k' ≠ k) : dlookup (dictInsertAdd d k v) k' = dlookup d k' := by
  unfold dictInsertAdd
  by_cases hs : (dlookup d k).isSome
  · rw [if_pos hs]
    exact dlookup_map_add_other v h d
  · rw [if_neg hs]
    exact dlookup_append_other v h d

lemma mem_dkeys_insertAdd {d : List (Email × ℚ)} {k x : Email} {v : ℚ}
    (h : x ∈ dkeys (dictInsertAdd d k v)) : x ∈ dkeys d ∨ x = k := by
  unfold dictInsertAdd at h
  by_cases hs : (dlookup d k).isSome
  · rw [if_pos hs] at h
    left
    unfold dkeys at h ⊢
    rw [List.map_map] at h
    have hfst : (Prod.fst ∘ fun kv : Email × ℚ =>
        if kv.1 = k then (kv.1, kv.2 + v) else kv) = Prod.fst := by
      funext kv
      by_cases hkv : kv.1 = k <;> simp [hkv]
    rwa [hfst] at h
  · rw [if_neg hs] at h
    unfold dkeys at h ⊢
    rw [List.map_append] at h
    rcases List.mem_append.mp h with h1 | h2
    · exact Or.inl h1
    · right
      simpa using h2

lemma dkeys_map_round2 (d : List (Email × ℚ)) :
    dkeys (d.map (fun kv => (kv.1, round2 kv.2))) = dkeys d := by
  unfold dkeys
  rw [List.map_map]
  rfl

lemma dlookup_map_pair {v : ℚ} :
    ∀ {l : List Email} {p : Email}, p ∈ l →
      dlookup (l.map (fun q => (q, v))) p = some v
  | [], p, h => absurd h (List.not_mem_nil p)
  | a :: tl, p, h => by
      rw [List.map_cons, dlookup_def, alookup_cons]
      by_cases hap : a = p
      · rw [if_pos hap]
      · rw [if_neg hap]
        exact dlookup_map_pair
          ((List.mem_cons.mp h).resolve_left (fun hh => hap hh.symm))

lemma dlookup_pyDictConst {ps : List Email} {p : Email} (v : ℚ)
    (h : p ∈ ps) : dlookup (pyDictConst ps v) p = some v :=
  dlookup_map_pair (List.mem_dedup.mpr h)

lemma dkeys_pyDictConst (ps : List Email) (v : ℚ) :
    dkeys (pyDictConst ps v) = ps.dedup := by
  unfold dkeys pyDictConst
  rw [List.map_map]
  have hfst : (Prod.fst ∘ fun p : Email => (p, v)) = id := rfl
  rw [hfst, List.map_id]

lemma sumValues_pyDictConst (ps : List Email) (v : ℚ) :
    sumValues (pyDictConst ps v) = ps.dedup.length * v := by
  unfold sumValues pyDictConst
  rw [List.map_map]
  have hsnd : (Prod.snd ∘ fun p : Email => (p, v)) = fun _ => v := rfl
  rw [hsnd, List.map_const', List.sum_replicate, nsmul_eq_mul]

lemma calculate_split_equal (e : Expense) (hm : e.split_method = "equal") :
    calculate_split e = pyDictConst e.participants (equalShare e) := by
  unfold calculate_split
  rw [if_pos hm]

/-! ### Concrete records used by witnesses and counterexamples -/

/-- The spec's running example: amount 100 split equally among a, b, c,
paid by a. -/
def ex100 : StoredExpense :=
  { amount := 100
    participants := ["a", "b", "c"]
    paid_by := "a"
    split_method := "equal"
    splits := none
    group_id := none }

/-- An equal split of 1.00 among seven participants: each share is 0.14, the
shares sum to 0.98. -/
def ex7 : Expense :=
  { description := ""
    amount := 1
    participants := ["p1", "p2", "p3", "p4", "p5", "p6", "p7"]
    paid_by := "p1"
    split_method := "equal"
    split_amounts := none
    group_id := none }

/-- A custom expense whose stored splits carry an extra key b that is not a
participant, with values still summing to the amount. -/
def exExtraKey : Expense :=
  { description := ""
    amount := 5
    participants := ["a"]
    paid_by := "a"
    split_method := "custom"
    split_amounts := some [("a", 3), ("b", 2)]
    group_id := none }

/-- A well-formed custom expense: keys match the participants and the values
sum to the amount. -/
def exGoodCustom : Expense :=
  { description := ""
    amount := 100
    participants := ["a", "b"]
    paid_by := "a"
    split_method := "custom"
    split_amounts := some [("a", 60), ("b", 40)]
    group_id := none }

/-- A payment of 5 from a to b. -/
def pmt5 : StoredPayment :=
  { amount := 5
    payer := "a"
    payee := "b"
    group_id := none }

/-! ### C9 -/

/-- C9: for every expense with method equal, the split calculator assigns
every participant the identical share round(amount/N, 2) where N is the
participant count, and the key set of the returned mapping is exactly the
participant set. -/
theorem equal_split_shares_and_keys (e : Expense) (hm : e.split_method = "equal") :
    (∀ p ∈ e.participants,
      dlookup (calculate_split e) p =
        some (round2 (e.amount / e.participants.length)))
    ∧ (∀ p, p ∈ dkeys (calculate_split e) ↔ p ∈ e.participants) := by
  rw [calculate_split_equal e hm]
  constructor
  · intro p hp
    exact dlookup_pyDictConst _ hp
  · intro p
    rw [dkeys_pyDictConst]
    exact List.mem_dedup

/-- Witness for C9 at the spec's 100/3 example. -/
theorem equal_split_shares_and_keys_witness :
    dlookup (calculate_split (expenseModelOf ex100)) "b" = some ((3333 : ℚ)/100)
    ∧ "c" ∈ dkeys (calculate_split (expenseModelOf ex100)) := by
  have h := equal_split_shares_and_keys (expenseModelOf ex100) rfl
  constructor
  · rw [h.1 "b" (by decide), Option.some.injEq]
    show round2 ((100:ℚ) / ((["a", "b", "c"] : List String).length : ℕ)) = 3333/100
    norm_num [round2, pyRound, Int.fract, round_eq]
  · exact (h.2 "c").mpr (by decide)

/-! ### C5 -/

/-- C5 counterexample: for amount 1.00 and seven participants the equal-split
shares are 0.14 each and sum to 0.98, which is 0.02 away from the amount —
not within 0.01 as the claim states. -/
theorem equal_split_sum_within_001_counterexample :
    sumValues (calculate_split ex7) = 98/100
    ∧ ¬ |sumValues (calculate_split ex7) - ex7.amount| ≤ 1/100 := by
  have hsum : sumValues (calculate_split ex7) = 98/100 := by
    rw [calculate_split_equal ex7 rfl, sumValues_pyDictConst,
      List.dedup_eq_self.mpr (show ex7.participants.Nodup by decide)]
    show ((["p1", "p2", "p3", "p4", "p5", "p6", "p7"] : List String).length : ℚ)
        * round2 ((1:ℚ) / ((["p1", "p2", "p3", "p4", "p5", "p6", "p7"] : List String).length : ℕ))
        = 98/100
    norm_num [round2, pyRound, Int.fract, round_eq]
  refine ⟨hsum, ?_⟩
  rw [hsum, show ex7.amount = (1:ℚ) from rfl,
    show (98:ℚ)/100 - 1 = -(2/100) by norm_num, abs_neg,
    abs_of_nonneg (by norm_num)]
  norm_num

/-- C5 (amended): for every expense with method equal and N distinct
participants (N ≥ 1), the computed split values sum to within N·0.005 of the
original expense amount. -/
theorem equal_split_sum_bound (e : Expense) (hm : e.split_method = "equal")
    (hne : e.participants ≠ []) (hnd : e.participants.Nodup) :
    |sumValues (calculate_split e) - e.amount|
      ≤ (e.participants.length : ℚ) * (1/200) := by
  rw [calculate_split_equal e hm, sumValues_pyDictConst, List.dedup_eq_self.mpr hnd]
  have hN : (0:ℚ) < e.participants.length := by
    exact_mod_cast List.length_pos.mpr hne
  have ha : (e.participants.length : ℚ) * (e.amount / e.participants.length)
      = e.amount := by
    field_simp
  have key : (e.participants.length : ℚ) * equalShare e - e.amount
      = (e.participants.length : ℚ)
        * (equalShare e - e.amount / e.participants.length) := by
    rw [mul_sub, ha]
  rw [key, abs_mul, abs_of_pos hN]
  exact mul_le_mul_of_nonneg_left
    (abs_round2_sub_le (e.amount / e.participants.length)) hN.le

/-- Witness for the amended C5 at the 1.00/7 example: 0.02 ≤ 7·0.005. -/
theorem equal_split_sum_bound_witness :
    |sumValues (calculate_split ex7) - ex7.amount|
      ≤ ((ex7.participants.length : ℕ) : ℚ) * (1/200) :=
  equal_split_sum_bound ex7 rfl (by decide) (by decide)

/-! ### C3 -/

/-- C3 counterexample: the split calculator accepts the stored custom splits
of `exExtraKey` even though their key set is a strict superset of the
participant set, where the claim demands a fallback to equal split. -/
theorem custom_split_exact_keys_counterexample :
    calculate_split exExtraKey = [("a", (3:ℚ)), ("b", 2)]
    ∧ setEqb (dkeys [("a", (3:ℚ)), ("b", 2)]) exExtraKey.participants = false
    ∧ calculate_split exExtraKey
        ≠ pyDictConst exExtraKey.participants (equalShare exExtraKey) := by
  have hcs : calculate_split exExtraKey = [("a", (3:ℚ)), ("b", 2)] := by
    norm_num [calculate_split, exExtraKey, sumValues, dlookup, alookup]
    rw [if_neg (show ¬ ("custom" = "equal") by decide),
      if_neg (show ¬ ([("a", (3:ℚ)), ("b", 2)] = []) by decide)]
  refine ⟨hcs, by decide, ?_⟩
  rw [hcs]
  intro h
  have hlen := congrArg List.length h
  simp [pyDictConst, exExtraKey] at hlen

/-- C3 (amended): for every expense with method custom, the split calculator
uses the stored explicit splits if and only if they are present and
non-empty, every participant appears among their keys (extra keys are
tolerated), and their values sum (rounded to 2 decimals) to the expense
amount; if any of these conditions fails it falls back to the equal split. -/
theorem custom_split_uses_stored_iff (e : Expense) (sa : List (Email × ℚ))
    (hm : e.split_method = "custom") (hsa : e.split_amounts = some sa) :
    ((sa ≠ [] ∧ (∀ p ∈ e.participants, (dlookup sa p).isSome = true) ∧
        round2 (sumValues sa) = round2 e.amount) →
      calculate_split e = sa)
    ∧ (¬ (sa ≠ [] ∧ (∀ p ∈ e.participants, (dlookup sa p).isSome = true) ∧
        round2 (sumValues sa) = round2 e.amount) →
      calculate_split e = pyDictConst e.participants (equalShare e)) := by
  have hne : ¬ e.split_method = "equal" := by
    rw [hm]
    decide
  have hmatch : calculate_split e =
      (if sa = [] then pyDictConst e.participants (equalShare e)
        else if ¬ (e.participants.all fun p => (dlookup sa p).isSome) = true then
          pyDictConst e.participants (equalShare e)
        else if round2 (sumValues sa) ≠ round2 e.amount then
          pyDictConst e.participants (equalShare e)
        else sa) := by
    unfold calculate_split
    rw [if_neg hne, if_pos hm, hsa]
  rw [hmatch]
  constructor
  · rintro ⟨h1, h2, h3⟩
    have hall : (e.participants.all fun p => (dlookup sa p).isSome) = true := by
      rw [List.all_eq_true]
      intro p hp
      exact h2 p hp
    rw [if_neg h1, if_neg (fun hc => hc hall),
      if_neg (show ¬ round2 (sumValues sa) ≠ round2 e.amount from fun hc => hc h3)]
  · intro hneg
    by_cases h1 : sa = []
    · rw [if_pos h1]
    · rw [if_neg h1]
      by_cases h2 : (e.participants.all fun p => (dlookup sa p).isSome) = true
      · rw [if_neg (not_not_intro h2)]
        by_cases h3 : round2 (sumValues sa) = round2 e.amount
        · exact absurd ⟨h1, fun p hp => List.all_eq_true.mp h2 p hp, h3⟩ hneg
        · rw [if_pos h3]
      · rw [if_pos h2]

/-- Witness for the amended C3: a well-formed custom split is used as
stored. -/
theorem custom_split_uses_stored_iff_witness :
    calculate_split exGoodCustom = [("a", (60:ℚ)), ("b", 40)] := by
  have h := custom_split_uses_stored_iff exGoodCustom [("a", (60:ℚ)), ("b", 40)] rfl rfl
  exact h.1 ⟨by decide, by decide, by norm_num [sumValues, exGoodCustom]⟩

/-! ### C6 -/

/-- C6: for every payment with payer A and payee B (A ≠ B) of amount X, the
aggregation's contribution decreases A's net-balance entry for B by X,
increases B's net-balance entry for A by X, and contributes nothing to the
view of any other user. -/
theorem payment_contribution (p : StoredPayment) (net : List (Email × ℚ))
    (hne : p.payer ≠ p.payee) :
    dlookup (processPayment p.payer p net) p.payee
        = some ((dlookup net p.payee).getD 0 - p.amount)
    ∧ dlookup (processPayment p.payee p net) p.payer
        = some ((dlookup net p.payer).getD 0 + p.amount)
    ∧ ∀ v : Email, v ≠ p.payer → v ≠ p.payee → processPayment v p net = net := by
  refine ⟨?_, ?_, ?_⟩
  · unfold processPayment
    rw [if_pos rfl, dlookup_insertAdd_self, sub_eq_add_neg]
  · unfold processPayment
    rw [if_neg (fun hh : p.payer = p.payee => hne hh), if_pos rfl,
      dlookup_insertAdd_self]
  · intro v hv1 hv2
    unfold processPayment
    rw [if_neg (fun hh : p.payer = v => hv1 hh.symm),
      if_neg (fun hh : p.payee = v => hv2 hh.symm)]

/-- Witness for C6 at a payment of 5 from a to b on an empty accumulator. -/
theorem payment_contribution_witness :
    dlookup (processPayment "a" pmt5 []) "b" = some (-5)
    ∧ dlookup (processPayment "b" pmt5 []) "a" = some 5
    ∧ processPayment "c" pmt5 [] = [] := by
  obtain ⟨h1, h2, h3⟩ := payment_contribution pmt5 [] (by decide)
  refine ⟨?_, ?_, h3 "c" (by decide) (by decide)⟩
  · rw [show ("a" : Email) = pmt5.payer from rfl, show ("b" : Email) = pmt5.payee from rfl,
      h1]
    simp [dlookup, alookup, pmt5]
  · rw [show ("b" : Email) = pmt5.payee from rfl, show ("a" : Email) = pmt5.payer from rfl,
      h2]
    simp [dlookup, alookup, pmt5]

/-! ### C4 -/

lemma customRejectCond_eq (e : Expense) :
    customRejectCond e = (customSplitsInvalidKeys e || customSumMismatch e) := by
  unfold customRejectCond customSplitsInvalidKeys customSumMismatch
  cases e.split_amounts with
  | none => rfl
  | some sa => rfl

/-- C4: a POST /expense request with split_method custom is rejected with
HTTP 400 and nothing is persisted whenever split_amounts is missing, its key
set differs from the participant set, or its values do not sum (rounded to 2
decimals) to the amount; when all three conditions hold, creation proceeds
and exactly the submitted expense is appended to the store. -/
theorem add_expense_custom_validation (cu : Email) (e : Expense) (st : Store)
    (hm : e.split_method = "custom") (hcu : cu ∈ e.participants)
    (hpb : e.paid_by ∈ e.participants) (hg : e.group_id = none) :
    (customRejectCond e = true → add_expense cu e st = (.httpError 400, st))
    ∧ (customRejectCond e = false →
        add_expense cu e st =
          (.ok, { st with expenses := st.expenses ++ [storedOfExpense e] })) := by
  unfold add_expense
  rw [if_neg (not_not_intro hcu), if_neg (not_not_intro hpb)]
  constructor
  · intro hrej
    by_cases hik : customSplitsInvalidKeys e = true
    · rw [if_pos ⟨hm, hik⟩]
    · have hik0 : customSplitsInvalidKeys e = false :=
        Bool.eq_false_iff.mpr hik
      have hb : customSumMismatch e = true := by
        rw [customRejectCond_eq, hik0, Bool.false_or] at hrej
        exact hrej
      rw [if_neg (fun hc => hik hc.2), if_pos ⟨hm, hb⟩]
  · intro hok
    rw [customRejectCond_eq, Bool.or_eq_false_iff] at hok
    obtain ⟨h1, h2⟩ := hok
    rw [if_neg (fun hc => by rw [h1] at hc; exact Bool.false_ne_true hc.2),
      if_neg (fun hc => by rw [h2] at hc; exact Bool.false_ne_true hc.2), hg]

/-- Witness for C4: a valid custom expense is inserted, and the same expense
with a missing participant key is rejected with 400 leaving the store
unchanged. -/
theorem add_expense_custom_validation_witness :
    add_expense "a" exGoodCustom ⟨[], [], []⟩ =
      (.ok, ⟨[storedOfExpense exGoodCustom], [], []⟩)
    ∧ add_expense "a" exExtraKey ⟨[], [], []⟩ = (.httpError 400, ⟨[], [], []⟩) := by
  constructor
  · have h := add_expense_custom_validation "a" exGoodCustom ⟨[], [], []⟩
      rfl (by decide) (by decide) rfl
    have h2 : round2 (sumValues [("a", (60:ℚ)), ("b", 40)])
        = round2 exGoodCustom.amount := by
      norm_num [sumValues, exGoodCustom]
    have hcond : customRejectCond exGoodCustom = false := by
      show (decide (([("a", (60:ℚ)), ("b", 40)] : List (Email × ℚ)) = [])
          || !setEqb (dkeys [("a", (60:ℚ)), ("b", 40)]) exGoodCustom.participants
          || decide (round2 (sumValues [("a", (60:ℚ)), ("b", 40)])
              ≠ round2 exGoodCustom.amount)) = false
      rw [decide_eq_false (not_not_intro h2)]
      decide
    rw [h.2 hcond]
    rfl
  · have h := add_expense_custom_validation "a" exExtraKey ⟨[], [], []⟩
      rfl (by decide) (by decide) rfl
    have hcond : customRejectCond exExtraKey = true := by decide
    rw [h.1 hcond]

/-! ### C7 -/

lemma fixOne_of_not (e : StoredExpense)
    (h : ¬ (e.split_method = "custom" ∧ brokenCustom e = true)) : fixOne e = e := by
  unfold fixOne
  rw [if_neg h]

lemma fixOne_stable (e : StoredExpense) :
    ¬ ((fixOne e).split_method = "custom" ∧ brokenCustom (fixOne e) = true) := by
  unfold fixOne
  by_cases h : e.split_method = "custom" ∧ brokenCustom e = true
  · rw [if_pos h]
    rintro ⟨hmeth, _⟩
    exact (show ¬ ("equal" = "custom") by decide) hmeth
  · rw [if_neg h]
    exact h

lemma fixOne_stable_b (e : StoredExpense) :
    (decide ((fixOne e).split_method = "custom") && brokenCustom (fixOne e)) = false := by
  cases hd : decide ((fixOne e).split_method = "custom") with
  | false => rw [Bool.false_and]
  | true =>
      cases hb : brokenCustom (fixOne e) with
      | false => rw [Bool.and_false]
      | true => exact absurd ⟨of_decide_eq_true hd, hb⟩ (fixOne_stable e)

lemma fixOne_idem (e : StoredExpense) : fixOne (fixOne e) = fixOne e :=
  fixOne_of_not (fixOne e) (fixOne_stable e)

/-- C7: the fixExpenses repair sweep is idempotent: on any store whose
scanned (custom-method) expenses all have non-empty participant lists, a
second run immediately after a first rewrites 0 records and leaves the store
unchanged. -/
theorem fix_expenses_idempotent (st : Store)
    (_h : ∀ e ∈ st.expenses, e.split_method = "custom" → e.participants ≠ []) :
    (fix_expenses (fix_expenses st).1).1 = (fix_expenses st).1
    ∧ (fix_expenses (fix_expenses st).1).2 = 0 := by
  constructor
  · show Store.mk ((st.expenses.map fixOne).map fixOne)
        st.payments st.groups
      = Store.mk (st.expenses.map fixOne) st.payments st.groups
    rw [List.map_map]
    congr 1
    exact List.map_congr_left (fun e _ => fixOne_idem e)
  · show (List.filter _ (st.expenses.map fixOne)).length = 0
    rw [List.length_eq_zero, List.filter_eq_nil_iff]
    intro a ha
    obtain ⟨e, _, rfl⟩ := List.mem_map.mp ha
    simp [fixOne_stable_b e]

/-- A store holding one broken custom expense: the stored splits omit a
participant. -/
def stBroken : Store :=
  { expenses := [{ amount := 10
                   participants := ["a", "b"]
                   paid_by := "a"
                   split_method := "custom"
                   splits := some [("a", 9)]
                   group_id := none }]
    payments := []
    groups := [] }

/-- Witness for C7 on a store with one broken custom expense. -/
theorem fix_expenses_idempotent_witness :
    (fix_expenses (fix_expenses stBroken).1).1 = (fix_expenses stBroken).1
    ∧ (fix_expenses (fix_expenses stBroken).1).2 = 0 :=
  fix_expenses_idempotent stBroken (by decide)

/-! ### C8 -/

lemma processBatch_stops_at_bad (cu : Email) (gid : String) (bad : Expense)
    (rest : List Expense) (code : ℕ) :
    ∀ (pre : List Expense) (st : Store),
      (∀ e ∈ pre, validateSubExpense st.groups cu gid e = none) →
      validateSubExpense st.groups cu gid bad = some code →
      processBatch cu gid (pre ++ bad :: rest) st =
        (.httpError code,
          { st with expenses :=
              st.expenses ++ pre.map (fun e => storedOfGroupExpense e gid) })
  | [], st, _, hbad => by
      rw [List.nil_append]
      show (match validateSubExpense st.groups cu gid bad with
        | some code => (ApiResult.httpError code, st)
        | none =>
            processBatch cu gid rest
              { st with expenses := st.expenses ++ [storedOfGroupExpense bad gid] })
        = _
      rw [hbad, List.map_nil, List.append_nil]
  | e :: pre, st, hpre, hbad => by
      rw [List.cons_append]
      show (match validateSubExpense st.groups cu gid e with
        | some code => (ApiResult.httpError code, st)
        | none =>
            processBatch cu gid (pre ++ bad :: rest)
              { st with expenses := st.expenses ++ [storedOfGroupExpense e gid] })
        = _
      rw [hpre e (List.mem_cons_self e pre)]
      rw [processBatch_stops_at_bad cu gid bad rest code pre
        { st with expenses := st.expenses ++ [storedOfGroupExpense e gid] }
        (fun x hx => hpre x (List.mem_cons_of_mem e hx)) hbad]
      rw [Prod.mk.injEq]
      refine ⟨rfl, ?_⟩
      rw [Store.mk.injEq]
      refine ⟨?_, rfl, rfl⟩
      rw [List.map_cons, List.append_assoc, List.singleton_append]

/-- C8: in the group-expense batch endpoint, sub-expenses are validated and
inserted one at a time in order; if the k-th sub-expense fails validation the
whole request returns its HTTP error, the already-inserted sub-expenses
before k stay persisted, and no later sub-expense is inserted. -/
theorem batch_failure_keeps_prior (cu : Email) (gid : String) (st : Store)
    (pre : List Expense) (bad : Expense) (rest : List Expense) (code : ℕ)
    (hinit : validate_group_members st gid [] cu = none)
    (hpre : ∀ e ∈ pre, validateSubExpense st.groups cu gid e = none)
    (hbad : validateSubExpense st.groups cu gid bad = some code) :
    add_group_expense cu gid (pre ++ bad :: rest) st =
      (.httpError code,
        { st with expenses :=
            st.expenses ++ pre.map (fun e => storedOfGroupExpense e gid) }) := by
  unfold add_group_expense
  rw [hinit]
  exact processBatch_stops_at_bad cu gid bad rest code pre st hpre hbad

/-- A valid sub-expense for the C8 witness: equal split between a and b. -/
def exSubGood : Expense :=
  { description := ""
    amount := 10
    participants := ["a", "b"]
    paid_by := "a"
    split_method := "equal"
    split_amounts := none
    group_id := none }

/-- An invalid sub-expense for the C8 witness: its payer c is not a
participant, so the batch loop rejects it with 400. -/
def exSubBad : Expense :=
  { description := ""
    amount := 20
    participants := ["a", "b"]
    paid_by := "c"
    split_method := "equal"
    split_amounts := none
    group_id := none }

/-- A store holding one group g with members a and b. -/
def stGroup : Store :=
  { expenses := []
    payments := []
    groups := [("g", ["a", "b"])] }

/-- Witness for C8: a batch of a good, a bad and one further sub-expense
fails with 400 and persists exactly the good sub-expense that preceded the
failure. -/
theorem batch_failure_keeps_prior_witness :
    add_group_expense "a" "g" [exSubGood, exSubBad, exSubGood] stGroup =
      (.httpError 400,
        { stGroup with expenses := [storedOfGroupExpense exSubGood "g"] }) := by
  have h := batch_failure_keeps_prior "a" "g" stGroup [exSubGood] exSubBad
    [exSubGood] 400 rfl
    (fun e he => by
      rw [List.mem_singleton.mp he]
      rfl)
    rfl
  exact h

/-! ### C1 -/

lemma userNetBalances_single_expense (e : StoredExpense) (v : Email)
    (hpart : v ∈ e.participants) :
    userNetBalances v ⟨[e], [], []⟩
      = (processExpense v e []).map (fun kv => (kv.1, round2 kv.2)) := by
  unfold userNetBalances
  simp [hpart]

lemma processExpense_nonpayer (e : StoredExpense) (v : Email) (s : ℚ)
    (hvalid : validStoredExpense e = true)
    (hne : v ≠ e.paid_by)
    (hs : dlookup (calculate_split (expenseModelOf e)) v = some s) :
    processExpense v e [] = [(e.paid_by, s)] := by
  unfold processExpense
  rw [if_pos hvalid]
  unfold calculate_user_balance
  rw [if_neg hne, hs]
  show List.foldl _ [] [(e.paid_by, -s)] = [(e.paid_by, s)]
  rw [List.foldl_cons, List.foldl_nil,
    if_pos (show (e.paid_by, -s).1 ≠ v from fun hh => hne hh.symm),
    if_neg (show ¬ e.paid_by = v from fun hh => hne hh.symm), neg_neg]
  rfl

lemma view_b_ex100 :
    userNetBalances "b" ⟨[ex100], [], []⟩ = [("a", (3333:ℚ)/100)] := by
  have hs : dlookup (calculate_split (expenseModelOf ex100)) "b"
      = some ((3333:ℚ)/100) := by
    rw [calculate_split_equal _ rfl,
      dlookup_pyDictConst (equalShare (expenseModelOf ex100)) (by decide),
      Option.some.injEq]
    show round2 ((100:ℚ) / ((["a", "b", "c"] : List String).length : ℕ)) = 3333/100
    norm_num [round2, pyRound, Int.fract, round_eq]
  rw [userNetBalances_single_expense ex100 "b" (by decide),
    processExpense_nonpayer ex100 "b" ((3333:ℚ)/100) (by decide) (by decide) hs]
  show [("a", round2 ((3333:ℚ)/100))] = [("a", (3333:ℚ)/100)]
  norm_num [round2, pyRound, Int.fract, round_eq]

/-- C1 counterexample: for the spec's example expense (amount 100, equal
split among a, b, c, paid by a) the view computed for b has
netBalances = \x7ba: +33.33\x7d, not \x7ba: -33.33\x7d as the claim states. -/
theorem nonpayer_entry_counterexample :
    dlookup (userNetBalances "b" ⟨[ex100], [], []⟩) "a" = some ((3333:ℚ)/100)
    ∧ ((3333:ℚ)/100) ≠ -((3333:ℚ)/100) := by
  constructor
  · rw [view_b_ex100, dlookup_def, alookup_cons, if_pos rfl]
  · norm_num

/-- C1 (amended): when the viewing email is a participant but not the payer
of the single stored expense, the viewing user's netBalances entry for the
payer equals plus splits[email] — the aggregation re-negates the balance that
calculate_user_balance already negated.  In particular, for an expense
amount=100, participants=[a,b,c], method equal, paid by a, the view computed
for b has netBalances=\x7ba: +33.33\x7d. -/
theorem nonpayer_entry_is_positive_share (e : StoredExpense) (v : Email) (s : ℚ)
    (hvalid : validStoredExpense e = true) (hpart : v ∈ e.participants)
    (hne : v ≠ e.paid_by)
    (hs : dlookup (calculate_split (expenseModelOf e)) v = some s) :
    userNetBalances v ⟨[e], [], []⟩ = [(e.paid_by, round2 s)] := by
  rw [userNetBalances_single_expense e v hpart,
    processExpense_nonpayer e v s hvalid hne hs]
  rfl

/-- Witness for the amended C1 at the spec's 100/3 example. -/
theorem nonpayer_entry_is_positive_share_witness :
    userNetBalances "b" ⟨[ex100], [], []⟩ = [("a", (3333:ℚ)/100)] := by
  have hs : dlookup (calculate_split (expenseModelOf ex100)) "b"
      = some ((3333:ℚ)/100) := by
    rw [calculate_split_equal _ rfl,
      dlookup_pyDictConst (equalShare (expenseModelOf ex100)) (by decide),
      Option.some.injEq]
    show round2 ((100:ℚ) / ((["a", "b", "c"] : List String).length : ℕ)) = 3333/100
    norm_num [round2, pyRound, Int.fract, round_eq]
  rw [nonpayer_entry_is_positive_share ex100 "b" ((3333:ℚ)/100) (by decide)
    (by decide) (by decide) hs]
  show [("a", round2 ((3333:ℚ)/100))] = [("a", (3333:ℚ)/100)]
  norm_num [round2, pyRound, Int.fract, round_eq]

/-! ### C2 -/

/-- A two-person expense paid by A, split equally with B. -/
def pairExpense (A B : Email) (a : ℚ) : StoredExpense :=
  { amount := a
    participants := [A, B]
    paid_by := A
    split_method := "equal"
    splits := none
    group_id := none }

lemma validStoredExpense_pair (A B : Email) (a : ℚ) (ha : 0 < a) :
    validStoredExpense (pairExpense A B a) = true := by
  show (decide (0 < a) && decide (([A, B] : List Email) ≠ []) &&
      (decide (("equal" : String) = "equal")
        || decide (("equal" : String) = "custom"))) = true
  rw [decide_eq_true ha, decide_eq_true (List.cons_ne_nil A [B])]
  rfl

lemma splits_pairExpense (A B : Email) (a : ℚ) (hAB : A ≠ B) :
    calculate_split (expenseModelOf (pairExpense A B a))
      = [(A, round2 (a/2)), (B, round2 (a/2))] := by
  rw [calculate_split_equal _ rfl]
  unfold pyDictConst
  rw [show (expenseModelOf (pairExpense A B a)).participants = [A, B] from rfl,
    List.dedup_cons_of_not_mem (by simp [hAB]),
    show ([B] : List Email).dedup = [B] from
      List.dedup_eq_self.mpr (List.nodup_singleton B)]
  show [(A, round2 (a / ((2:ℕ) : ℚ))), (B, round2 (a / ((2:ℕ) : ℚ)))] = _
  norm_num

lemma view_pair_payer (A B : Email) (a : ℚ) (hAB : A ≠ B) (ha : 0 < a) :
    userNetBalances A ⟨[pairExpense A B a], [], []⟩
      = [(B, round2 (round2 (a/2)))] := by
  rw [userNetBalances_single_expense _ _ (List.mem_cons_self A [B])]
  unfold processExpense
  rw [if_pos (validStoredExpense_pair A B a ha), splits_pairExpense A B a hAB]
  unfold calculate_user_balance
  rw [if_pos (show (A : Email) = (pairExpense A B a).paid_by from rfl)]
  have hfil : ([(A, round2 (a/2)), (B, round2 (a/2))].filter
      (fun pa => decide (pa.1 ≠ (A : Email)))) = [(B, round2 (a/2))] := by
    simp [hAB, Ne.symm hAB]
  rw [hfil, List.foldl_cons, List.foldl_nil,
    if_pos (show ((B, round2 (a/2)).1 : Email) ≠ A from fun hh => hAB hh.symm),
    if_pos (show ((pairExpense A B a).paid_by : Email) = A from rfl)]
  rfl

lemma view_pair_nonpayer (A B : Email) (a : ℚ) (hAB : A ≠ B) (ha : 0 < a) :
    userNetBalances B ⟨[pairExpense A B a], [], []⟩
      = [(A, round2 (round2 (a/2)))] := by
  have hs : dlookup (calculate_split (expenseModelOf (pairExpense A B a))) B
      = some (round2 (a/2)) := by
    rw [splits_pairExpense A B a hAB, dlookup_def, alookup_cons, if_neg hAB,
      alookup_cons, if_pos rfl]
  rw [userNetBalances_single_expense _ _ (by
      exact List.mem_cons_of_mem A (List.mem_cons_self B [])),
    processExpense_nonpayer (pairExpense A B a) B (round2 (a/2))
      (validStoredExpense_pair A B a ha) (fun hh => hAB hh.symm) hs]
  rfl

/-- C2 counterexample: in a store holding a single expense of 100 paid by a
and shared equally with b, both views report +50 for the counterparty, so
netBalances(a)[b] = 50 ≠ -50 = -netBalances(b)[a] fails the claimed
negation symmetry. -/
theorem net_balance_negation_symmetry_counterexample :
    dlookup (userNetBalances "a" ⟨[pairExpense "a" "b" 100], [], []⟩) "b"
        = some (50:ℚ)
    ∧ dlookup (userNetBalances "b" ⟨[pairExpense "a" "b" 100], [], []⟩) "a"
        = some (50:ℚ)
    ∧ (50:ℚ) ≠ -(50:ℚ) := by
  have hr : round2 (round2 ((100:ℚ)/2)) = 50 := by
    norm_num [round2, pyRound, Int.fract, round_eq]
  refine ⟨?_, ?_, by norm_num⟩
  · rw [view_pair_payer "a" "b" 100 (by decide) (by norm_num), hr,
      dlookup_def, alookup_cons, if_pos rfl]
  · rw [view_pair_nonpayer "a" "b" 100 (by decide) (by norm_num), hr,
      dlookup_def, alookup_cons, if_pos rfl]

/-- C2 (amended): for two distinct users A and B and a store holding a single
equal-split expense of positive amount paid by A and shared with B (no group
context, no payments), the two views agree with the same sign:
netBalances(A)[B] == +netBalances(B)[A], both equal to the rounded share. -/
theorem net_balance_pair_symmetry_is_equality (A B : Email) (a : ℚ)
    (hAB : A ≠ B) (ha : 0 < a) :
    dlookup (userNetBalances A ⟨[pairExpense A B a], [], []⟩) B
        = some (round2 (round2 (a/2)))
    ∧ dlookup (userNetBalances B ⟨[pairExpense A B a], [], []⟩) A
        = some (round2 (round2 (a/2))) := by
  rw [view_pair_payer A B a hAB ha, view_pair_nonpayer A B a hAB ha]
  constructor
  · rw [dlookup_def, alookup_cons, if_pos rfl]
  · rw [dlookup_def, alookup_cons, if_pos rfl]

/-- Witness for the amended C2 at A=a, B=b, amount 100: both entries are 50. -/
theorem net_balance_pair_symmetry_is_equality_witness :
    dlookup (userNetBalances "a" ⟨[pairExpense "a" "b" 100], [], []⟩) "b"
        = some (50:ℚ)
    ∧ dlookup (userNetBalances "b" ⟨[pairExpense "a" "b" 100], [], []⟩) "a"
        = some (50:ℚ) := by
  have h := net_balance_pair_symmetry_is_equality "a" "b" 100 (by decide)
    (by norm_num)
  have hr : round2 (round2 ((100:ℚ)/2)) = 50 := by
    norm_num [round2, pyRound, Int.fract, round_eq]
  rw [hr] at h
  exact h

/-! ### C10 -/

lemma foldl_guarded_insert_no_self (email : Email) (g : Email × ℚ → ℚ) :
    ∀ (ub : List (Email × ℚ)) (net : List (Email × ℚ)),
      email ∉ dkeys net →
      email ∉ dkeys (ub.foldl (fun acc pa =>
        if pa.1 ≠ email then dictInsertAdd acc pa.1 (g pa) else acc) net)
  | [], _, h => h
  | pa :: tl, net, h => by
      rw [List.foldl_cons]
      apply foldl_guarded_insert_no_self
      by_cases hpa : pa.1 ≠ email
      · rw [if_pos hpa]
        intro hc
        rcases mem_dkeys_insertAdd hc with h1 | h2
        · exact h h1
        · exact hpa h2.symm
      · rw [if_neg hpa]
        exact h

lemma processExpense_no_self (email : Email) (e : StoredExpense)
    (net : List (Email × ℚ)) (h : email ∉ dkeys net) :
    email ∉ dkeys (processExpense email e net) := by
  unfold processExpense
  by_cases hv : validStoredExpense e = true
  · rw [if_pos hv]
    exact foldl_guarded_insert_no_self email _ _ net h
  · rw [if_neg hv]
    exact h

lemma processPayment_no_self (email : Email) (p : StoredPayment)
    (net : List (Email × ℚ)) (hpp : p.payer ≠ p.payee)
    (h : email ∉ dkeys net) : email ∉ dkeys (processPayment email p net) := by
  unfold processPayment
  by_cases h1 : p.payer = email
  · rw [if_pos h1]
    intro hc
    rcases mem_dkeys_insertAdd hc with hc1 | hc2
    · exact h hc1
    · exact hpp (by rw [h1, hc2])
  · rw [if_neg h1]
    by_cases h2 : p.payee = email
    · rw [if_pos h2]
      intro hc
      rcases mem_dkeys_insertAdd hc with hc1 | hc2
      · exact h hc1
      · exact h1 hc2.symm
    · rw [if_neg h2]
      exact h

lemma foldl_processExpense_no_self (email : Email) :
    ∀ (es : List StoredExpense) (net : List (Email × ℚ)),
      email ∉ dkeys net →
      email ∉ dkeys (es.foldl (fun net e => processExpense email e net) net)
  | [], _, h => h
  | e :: tl, net, h => by
      rw [List.foldl_cons]
      exact foldl_processExpense_no_self email tl _
        (processExpense_no_self email e net h)

lemma foldl_processPayment_no_self (email : Email) :
    ∀ (ps : List StoredPayment) (net : List (Email × ℚ)),
      (∀ p ∈ ps, p.payer ≠ p.payee) →
      email ∉ dkeys net →
      email ∉ dkeys (ps.foldl (fun net p => processPayment email p net) net)
  | [], _, _, h => h
  | p :: tl, net, hps, h => by
      rw [List.foldl_cons]
      exact foldl_processPayment_no_self email tl _
        (fun q hq => hps q (List.mem_cons_of_mem p hq))
        (processPayment_no_self email p net (hps p (List.mem_cons_self p tl)) h)

/-- C10: for every viewing email, the net_balances mapping returned by the
user-view aggregation never contains the viewing email itself as a key,
provided every stored payment has payer ≠ payee (the invariant the write-time
validation enforces); expense contributions exclude the self key
unconditionally. -/
theorem no_self_counterparty (email : Email) (st : Store)
    (hp : ∀ p ∈ st.payments, p.payer ≠ p.payee) :
    email ∉ dkeys (userNetBalances email st) := by
  unfold userNetBalances
  rw [dkeys_map_round2]
  apply foldl_processPayment_no_self
  · intro p hpmem
    exact hp p (List.mem_filter.mp hpmem).1
  · apply foldl_processExpense_no_self
    exact List.not_mem_nil email

/-- A store with the example expense and one payment, used by the C10
witness. -/
def stMixed : Store :=
  { expenses := [ex100]
    payments := [pmt5]
    groups := [] }

/-- Witness for C10: the view a computes over a store containing an expense
it paid and a payment it made has no entry keyed by a itself. -/
theorem no_self_counterparty_witness :
    "a" ∉ dkeys (userNetBalances "a" stMixed) :=
  no_self_counterparty "a" stMixed (by decide)
